import Mathlib

/-!
Verification development for the terki terminal wiki browser.

The Rust sources are shallowly embedded: strings are `List Char` (all inputs
considered are ASCII, where Rust byte indices coincide with character
indices), `usize`/`u16` arithmetic is `Nat` with the debug-mode panics of
subtraction underflow and out-of-bounds indexing modelled by returning
`none`, and every fallible or panicking operation returns an `Option`.
-/

/-- Model of Rust `str::find`: index of the first occurrence of `pat` in
`hay` (an empty pattern matches at index 0). -/
def listFind (hay pat : List Char) : Option Nat :=
  ((List.range (hay.length + 1)).filter (fun i => pat.isPrefixOf (hay.drop i))).head?

/-- Model of Rust `str::rfind`: index of the last occurrence of `pat` in
`hay`. -/
def listRfind (hay pat : List Char) : Option Nat :=
  ((List.range (hay.length + 1)).filter (fun i => pat.isPrefixOf (hay.drop i))).getLast?

/-- Model of Rust `Vec::insert`: insert `a` at position `n` (callers check
`n ≤ l.length`; Rust panics otherwise). -/
def listInsertAt (n : Nat) (a : α) (l : List α) : List α :=
  l.take n ++ a :: l.drop n

/-- The escape character of the ANSI sequences crossterm emits. -/
def escChar : Char := Char.ofNat 27

/-- crossterm `style(s).attribute(Attribute::Bold).to_string()`. -/
def styleBold (s : List Char) : List Char :=
  (escChar :: "[1m".toList) ++ s ++ (escChar :: "[0m".toList)

/-- crossterm `style(s).with(Color::Yellow).attribute(Attribute::Bold).to_string()`. -/
def styleYellowBold (s : List Char) : List Char :=
  (escChar :: "[38;5;11m".toList) ++ (escChar :: "[1m".toList) ++ s ++ (escChar :: "[0m".toList)

/-- `DisplayLine` from wiki.rs: one wrapped physical line, tagged with the
index of the logical item it came from (`none` for separator lines). -/
structure DisplayLine where
  text : List Char
  line_index : Option Nat
deriving DecidableEq

/-- `Search` from pane.rs: the live search cursor. -/
structure Search where
  line : Nat
  index : Nat
  pattern : List Char
deriving DecidableEq

/-- The status string `Pane::search_next` writes to the status row
("changed" / "first" / "next"). -/
inductive SearchStatus where
  | changed
  | first
  | next
deriving DecidableEq

/-- `Pane` from pane.rs (the terminal handle is not part of the state). -/
structure Pane where
  header : List Char
  lines : List DisplayLine
  display_lines : List DisplayLine
  current_search : Option Search
  scroll_index : Nat
  highlight_index : Option Nat
  size : Nat × Nat
deriving DecidableEq

/-- `Pane::new`. -/
def Pane.new (lines : List DisplayLine) (size : Nat × Nat) : Pane :=
  ⟨[], lines, lines, none, 0, none, size⟩

/-- Loop body of `Pane::find_search`: scan lines starting at enumeration
index `i` for the first one containing `pattern`. -/
def findSearchGo (pattern : List Char) : List DisplayLine → Nat → Option Search
  | [], _ => none
  | l :: rest, i =>
    match listFind l.text pattern with
    | some idx => some ⟨i, idx, pattern⟩
    | none => findSearchGo pattern rest (i + 1)

/-- `Pane::find_search`: first match of `pattern` in `lines`, skipping the
first `offset` lines. -/
def Pane.find_search (p : Pane) (pattern : List Char) (offset : Nat) : Option Search :=
  findSearchGo pattern (p.lines.drop offset) offset

/-- `Pane::search_next`. Returns the updated pane and the status that was
reported; `none` models a panic (out-of-range index or slice). -/
def Pane.search_next (p : Pane) (pattern : List Char) : Option (Pane × SearchStatus) :=
  match p.current_search with
  | some s =>
    if s.pattern ≠ pattern then
      -- reset if new pattern is not the same as the old one
      match p.lines.get? s.line with
      | none => none
      | some canon =>
        if s.line < p.display_lines.length then
          some ({p with display_lines := p.display_lines.set s.line canon,
                        current_search := none}, SearchStatus.changed)
        else none
    else
      match p.lines.get? s.line with
      | none => none
      | some line =>
        if s.index + pattern.length ≤ line.text.length then
          let next_index := listFind (line.text.drop (s.index + pattern.length)) pattern
          let cs := match next_index with
            | some idx => some (Search.mk s.line (s.index + idx) s.pattern)
            | none => p.find_search pattern (s.line + 1)
          some ({p with current_search := cs}, SearchStatus.next)
        else none
  | none =>
    some ({p with current_search := p.find_search pattern p.scroll_index}, SearchStatus.first)

/-- `Pane::find_link`. The outer `Option` models panics (underflow of
`lines.len() - scroll_index`, slicing panics); the inner `Option` is the
function's own return value. -/
def Pane.find_link (p : Pane) (x y : Nat) : Option (Option (List Char)) :=
  if p.lines.length < p.scroll_index then none
  else if p.lines.length - p.scroll_index ≤ y then some none
  else
    match p.lines.get? (p.scroll_index + y) with
    | none => none
    | some line =>
      if line.text.length ≤ x then some none
      else
        let start := listRfind (line.text.take x) ("[[".toList)
        let stop := start.bind (fun s => listFind (line.text.drop s) ("]]".toList))
        match start, stop with
        | some s, some e =>
          if s + 2 ≤ e ∧ e ≤ line.text.length then
            some (some ((line.text.take e).drop (s + 2)))
          else none
        | _, _ => some none

/-- The text `Pane::display` writes for the row showing `display_lines[i]`:
the stored rendered line, with the matched substring re-styled bold when the
live search cursor points at this line (the styling is applied to a local
clone; the buffers themselves are not written). -/
def Pane.renderLine (p : Pane) (i : Nat) : Option (List Char) :=
  match p.display_lines.get? i with
  | none => none
  | some line =>
    match p.current_search with
    | some s =>
      if s.line = i then
        if s.index + s.pattern.length ≤ line.text.length then
          some (line.text.take s.index ++ styleBold s.pattern ++
                line.text.drop (s.index + s.pattern.length))
        else none
      else some line.text
    | none => some line.text

/-- `Pane::line_to_display`: index of the first display line tagged with
logical index `target`. -/
def Pane.line_to_display (p : Pane) (target : Nat) : Option Nat :=
  p.display_lines.findIdx? (fun l => l.line_index == some target)

/-- Loop body of `Pane::reset_line`: walking from display index `i`, copy
canonical lines over display lines while their `line_index` equals `target`,
stopping at the first line that does not match. `fuel` counts the remaining
loop iterations (`lines.len() - i`). -/
def resetLoop (target : Nat) : Nat → Nat → Pane → Option Pane
  | 0, _, p => some p
  | fuel + 1, i, p =>
    match p.lines.get? i with
    | none => some p
    | some cur =>
      if cur.line_index = some target then
        if i < p.display_lines.length then
          resetLoop target fuel (i + 1) {p with display_lines := p.display_lines.set i cur}
        else none
      else some p

/-- `Pane::reset_line`. `none` models the panics (`lines[line]` out of
range, `.line_index.unwrap()` on `None`). -/
def Pane.reset_line (p : Pane) (hi : Option Nat) : Option Pane :=
  match hi with
  | none => some p
  | some h =>
    match p.line_to_display h with
    | none => some p
    | some line =>
      match p.lines.get? line with
      | none => none
      | some ll =>
        match ll.line_index with
        | none => none
        | some target => resetLoop target (p.lines.length - line) line p

/-- Loop body of `Pane::highlight_line`: restyle display lines
`start..=end` with the yellow-bold style, `k` iterations remaining starting
at index `i`; `none` models the out-of-range indexing panics. -/
def hlLoop : Nat → Nat → Pane → Option Pane
  | 0, _, p => some p
  | k + 1, i, p =>
    match p.lines.get? i, p.display_lines.get? i with
    | some src, some dst =>
      hlLoop k (i + 1)
        {p with display_lines := p.display_lines.set i {dst with text := styleYellowBold src.text}}
    | _, _ => none

/-- Length of the run of consecutive lines at the head of the list whose
`line_index` equals `target` (how far `Pane::highlight_line`'s second loop
advances `end_index`). -/
def matchRun (target : Nat) : List DisplayLine → Nat
  | [] => 0
  | l :: rest => if l.line_index = some target then matchRun target rest + 1 else 0

/-- `Pane::highlight_line`. -/
def Pane.highlight_line (p : Pane) : Option Pane :=
  let line := match p.highlight_index with
    | none => p.scroll_index
    | some l => l
  let target := line
  let start_index := (p.lines.findIdx? (fun l => l.line_index == some target)).getD 0
  let run := matchRun target (p.lines.drop start_index)
  let end_index := if run = 0 then start_index else start_index + run - 1
  hlLoop (end_index + 1 - start_index) start_index p

/-- The state mutation of `Pane::scroll_down`'s redraw loop: `k` iterations,
each incrementing `scroll_index` and reading
`display_lines[scroll_index + rows - 3]` (underflow / out-of-range panics
modelled as `none`). -/
def downLoop (rows : Nat) : Nat → Pane → Option Pane
  | 0, p => some p
  | k + 1, p =>
    let idx := p.scroll_index + 1
    if 3 ≤ idx + rows ∧ idx + rows - 3 < p.display_lines.length then
      downLoop rows k {p with scroll_index := idx}
    else none

/-- The state mutation of `Pane::scroll_up`'s redraw loop: `k` iterations,
each decrementing `scroll_index` and reading `display_lines[scroll_index]`. -/
def upLoop : Nat → Pane → Option Pane
  | 0, p => some p
  | k + 1, p =>
    if 1 ≤ p.scroll_index ∧ p.scroll_index - 1 < p.display_lines.length then
      upLoop k {p with scroll_index := p.scroll_index - 1}
    else none

/-- `Pane::scroll_down`. `none` models debug-mode panics: underflow of
`scroll_index + rows - 2` in the guard, `.unwrap()` of a missing highlight
row, underflow of `after - before`, the panics inside `reset_line` /
`highlight_line`, underflow of `rows - 2` in the `display()` call of the
highlight path, and out-of-range reads in the redraw loop. -/
def Pane.scroll_down (p : Pane) : Option Pane :=
  if p.scroll_index + p.size.2 < 2 then none
  else if p.scroll_index + p.size.2 - 2 < p.lines.length then
    match p.highlight_index with
    | none => downLoop p.size.2 1 p
    | some h =>
      match p.line_to_display h with
      | none => none
      | some before =>
        match p.line_to_display (h + 1) with
        | none => downLoop p.size.2 1 p
        | some after =>
          if after < before then none
          else
            match p.reset_line (some h) with
            | none => none
            | some p1 =>
              match Pane.highlight_line {p1 with highlight_index := some (h + 1)} with
              | none => none
              | some p3 =>
                if p.size.2 < 2 then none
                else downLoop p.size.2 (after - before) p3
  else some p

/-- `Pane::scroll_up`, with the same panic modelling; additionally `h - 1`
underflows when the highlighted index is 0. -/
def Pane.scroll_up (p : Pane) : Option Pane :=
  if 0 < p.scroll_index then
    match p.highlight_index with
    | none => upLoop 1 p
    | some h =>
      match p.line_to_display h with
      | none => none
      | some before =>
        if h = 0 then none
        else
          match p.line_to_display (h - 1) with
          | none => upLoop 1 p
          | some after =>
            if before < after then none
            else
              match p.reset_line (some h) with
              | none => none
              | some p1 =>
                match Pane.highlight_line {p1 with highlight_index := some (h - 1)} with
                | none => none
                | some p3 =>
                  if p.size.2 < 2 then none
                  else upLoop (before - after) p3
  else some p

/-- `ExEventStatus` from ex.rs. -/
inductive ExEventStatus where
  | consumed
  | run (cmd : List Char)
  | notHandled
deriving DecidableEq

/-- The key codes handled by `Ex::handle_key_press`. -/
inductive KeyCode where
  | esc
  | enter
  | home
  | endKey
  | up
  | down
  | left
  | right
  | backspace
  | char (c : Char)
deriving DecidableEq

/-- `Ex` from ex.rs. -/
structure Ex where
  active : Bool
  buffer : List Char
  result : List Char
  cursor_pos : Nat
  history : List (List Char)
  hindex : Option Nat
deriving DecidableEq

/-- `Ex::new`. -/
def Ex.new : Ex := ⟨false, [], [], 0, [], none⟩

/-- The history append of the Enter branch (ex.rs line 94): push `command`
unless the history already ends with it. -/
def exPush (hist : List (List Char)) (command : List Char) : List (List Char) :=
  if hist = [] ∨ hist.getLast? ≠ some command then hist ++ [command] else hist

/-- The tail of the Enter branch of `Ex::handle_key_press` (ex.rs lines
91-98): a non-empty resolved command deactivates the editor, appends to
history unless it equals the current last entry, and is returned to run. -/
def exFinishEnter (ex : Ex) (command : List Char) : Ex × ExEventStatus :=
  if command ≠ [] then
    ({ex with active := false, cursor_pos := 0, history := exPush ex.history command},
     ExEventStatus.run command)
  else (ex, ExEventStatus.consumed)

/-- The fork-then-edit rule shared by the Backspace and Char branches: a
browsed history entry is first copied into the buffer and the history
cursor cleared. `none` models the `history[hindex]` indexing panic. -/
def Ex.forkHistory (ex : Ex) : Option Ex :=
  match ex.hindex with
  | some hindex =>
    match ex.history.get? hindex with
    | some entry => some {ex with buffer := entry, hindex := none}
    | none => none
  | none => some ex

/-- `Ex::handle_key_press`. `none` models debug-mode panics (out-of-range
history indexing, slice panics). -/
def Ex.handle_key_press (ex : Ex) (code : KeyCode) : Option (Ex × ExEventStatus) :=
  if ex.active = false then
    if code = KeyCode.char ':' then some ({ex with active := true}, ExEventStatus.consumed)
    else some (ex, ExEventStatus.notHandled)
  else
    match code with
    | KeyCode.esc => some ({ex with active := false}, ExEventStatus.consumed)
    | KeyCode.enter =>
      match ex.hindex with
      | none => some (exFinishEnter {ex with buffer := []} ex.buffer)
      | some hindex =>
        match ex.history.get? hindex with
        | none => none
        | some command =>
          some (exFinishEnter
            {ex with hindex := none, history := ex.history.eraseIdx hindex} command)
    | KeyCode.home => some ({ex with cursor_pos := 0}, ExEventStatus.consumed)
    | KeyCode.endKey =>
      some ({ex with cursor_pos := ex.buffer.length - 1}, ExEventStatus.consumed)
    | KeyCode.up =>
      if ex.buffer.length = 0 then
        match ex.hindex with
        | some hindex =>
          let newIndex := hindex - 1
          match ex.history.get? newIndex with
          | some entry =>
            some ({ex with hindex := some newIndex, cursor_pos := entry.length},
                  ExEventStatus.consumed)
          | none => none
        | none =>
          if 0 < ex.history.length then
            let newIndex := ex.history.length - 1
            match ex.history.get? newIndex with
            | some entry =>
              some ({ex with hindex := some newIndex, cursor_pos := entry.length},
                    ExEventStatus.consumed)
            | none => none
          else some (ex, ExEventStatus.consumed)
      else some (ex, ExEventStatus.notHandled)
    | KeyCode.down =>
      match ex.hindex with
      | some hindex =>
        let next_index := hindex + 1
        if ex.history.length ≤ next_index then
          some ({ex with hindex := none, cursor_pos := 0}, ExEventStatus.consumed)
        else
          match ex.history.get? next_index with
          | some entry =>
            some ({ex with hindex := some next_index, cursor_pos := entry.length},
                  ExEventStatus.consumed)
          | none => none
      | none => some (ex, ExEventStatus.consumed)
    | KeyCode.left =>
      some ({ex with cursor_pos := ex.cursor_pos - 1}, ExEventStatus.consumed)
    | KeyCode.right =>
      match ex.hindex with
      | some hindex =>
        match ex.history.get? hindex with
        | some entry =>
          some ({ex with cursor_pos := min (ex.cursor_pos + 1) entry.length},
                ExEventStatus.consumed)
        | none => none
      | none =>
        some ({ex with cursor_pos := min (ex.cursor_pos + 1) ex.buffer.length},
              ExEventStatus.consumed)
    | KeyCode.backspace =>
      match ex.forkHistory with
      | none => none
      | some ex1 =>
        if 0 < ex1.buffer.length then
          let new_cursor := ex1.cursor_pos - 1
          if new_cursor ≤ ex1.buffer.length ∧ ex1.cursor_pos ≤ ex1.buffer.length then
            some ({ex1 with
                    buffer := ex1.buffer.take new_cursor ++ ex1.buffer.drop ex1.cursor_pos,
                    cursor_pos := new_cursor}, ExEventStatus.consumed)
          else none
        else some ({ex1 with active := false}, ExEventStatus.consumed)
    | KeyCode.char c =>
      match ex.forkHistory with
      | none => none
      | some ex1 =>
        if ex1.cursor_pos ≤ ex1.buffer.length then
          some ({ex1 with
                  buffer := ex1.buffer.take ex1.cursor_pos ++ c :: ex1.buffer.drop ex1.cursor_pos,
                  cursor_pos := ex1.cursor_pos + 1}, ExEventStatus.consumed)
        else none

/-- Feed a sequence of key presses to the editor, discarding statuses (the
commands submitted along the way in the scenarios below are unrecognized
verbs, which `Terki::run_command` ignores without touching editor state). -/
def runKeys : Ex → List KeyCode → Option Ex
  | ex, [] => some ex
  | ex, k :: rest =>
    match ex.handle_key_press k with
    | some (ex1, _) => runKeys ex1 rest
    | none => none

/-- `Location` from terki.rs. -/
inductive Location where
  | Replace
  | Next
  | End
deriving DecidableEq

/-- The pane-collection state of `Terki` from terki.rs (wikis are reduced to
their names; page fetching is a collaborator, so `Terki.openPane` receives
the fetched page's wrapped lines as an argument). -/
structure Terki where
  wikis : List (List Char)
  panes : List Pane
  pane_to_wiki : List (List Char)
  pane_to_slug : List (List Char)
  active_pane : Nat
  size : Nat × Nat
deriving DecidableEq

/-- `Terki::new`. -/
def Terki.new (size : Nat × Nat) : Terki := ⟨[], [], [], [], 0, size⟩

/-- `Terki::open`: `none` models both the early `Err` return when the wiki
is unknown and the `Vec::remove` / `Vec::insert` panics. -/
def Terki.openPane (t : Terki) (wiki slug : List Char) (pageLines : List DisplayLine)
    (location : Location) : Option Terki :=
  if wiki ∈ t.wikis then
    let pane := Pane.new pageLines t.size
    match t.panes.length, location with
    | 0, _ =>
      some {t with panes := t.panes ++ [pane],
                   pane_to_wiki := t.pane_to_wiki ++ [wiki],
                   pane_to_slug := t.pane_to_slug ++ [slug],
                   active_pane := t.panes.length}
    | _ + 1, Location.End =>
      some {t with panes := t.panes ++ [pane],
                   pane_to_wiki := t.pane_to_wiki ++ [wiki],
                   pane_to_slug := t.pane_to_slug ++ [slug],
                   active_pane := t.panes.length}
    | _ + 1, Location.Replace =>
      if t.active_pane < t.panes.length ∧ t.active_pane < t.pane_to_wiki.length ∧
          t.active_pane < t.pane_to_slug.length then
        some {t with
          panes := listInsertAt t.active_pane pane (t.panes.eraseIdx t.active_pane),
          pane_to_wiki := listInsertAt t.active_pane wiki (t.pane_to_wiki.eraseIdx t.active_pane),
          pane_to_slug := listInsertAt t.active_pane slug (t.pane_to_slug.eraseIdx t.active_pane)}
      else none
    | _ + 1, Location.Next =>
      let ap := t.active_pane + 1
      if ap ≤ t.panes.length ∧ ap ≤ t.pane_to_wiki.length ∧ ap ≤ t.pane_to_slug.length then
        some {t with
          panes := listInsertAt ap pane t.panes,
          pane_to_wiki := listInsertAt ap wiki t.pane_to_wiki,
          pane_to_slug := listInsertAt ap slug t.pane_to_slug,
          active_pane := ap}
      else none
  else none

/-- The `"close"` branch of `Terki::run_command`: removes the active pane
(only `panes` is touched) and clamps the active index. -/
def Terki.close (t : Terki) : Option Terki :=
  if 1 < t.panes.length then
    if t.active_pane < t.panes.length then
      let panes := t.panes.eraseIdx t.active_pane
      let ap := if panes.length ≤ t.active_pane then panes.length - 1 else t.active_pane
      some {t with panes := panes, active_pane := ap}
    else none
  else some t

/-! ## Concrete states used by the claims -/

/-- A one-line fetched page used by the session-coordinator scenarios. -/
def terkiPage : List DisplayLine := [⟨"hello".toList, some 0⟩]

/-- A session with one known wiki named `w` and no panes yet. -/
def terkiStart : Terki := {Terki.new (80, 24) with wikis := ["w".toList]}

/-- A pane whose single line is `abab`. -/
def searchPane : Pane := Pane.new [⟨"abab".toList, some 0⟩] (40, 5)

/-- The pane of spec scenario A. -/
def linkPane : Pane := Pane.new
  [⟨"Intro".toList, some 0⟩, ⟨"See [[Topic A]] for more".toList, some 1⟩, ⟨[], none⟩]
  (40, 24)

/-- The key presses that submit `a`, `x`, `a`, then recall the middle
entry `x` and resubmit it. -/
def c4keys : List KeyCode :=
  [KeyCode.char ':', KeyCode.char 'a', KeyCode.enter,
   KeyCode.char ':', KeyCode.char 'x', KeyCode.enter,
   KeyCode.char ':', KeyCode.char 'a', KeyCode.enter,
   KeyCode.char ':', KeyCode.up, KeyCode.up, KeyCode.enter]

/-- An active editor holding the uncommitted text `abc`. -/
def c5ex : Ex := ⟨true, "abc".toList, [], 3, ["old".toList], none⟩

/-- An active editor with empty buffer used for the repeat-submit witness. -/
def c4ex : Ex := ⟨true, "go".toList, [], 2, [], none⟩

/-- The state after the first submission of `go`. -/
def c4ex1 : Ex := ⟨false, [], [], 0, ["go".toList], none⟩

/-- A pane with a live search cursor on `ab` at line 0, offset 1. -/
def c8pane : Pane :=
  {Pane.new [⟨"xxabyy".toList, some 0⟩] (40, 5) with current_search := some ⟨0, 1, "ab".toList⟩}

/-- A fresh pane whose single line `xxabyy` contains one `ab` match. -/
def c9pane0 : Pane := Pane.new [⟨"xxabyy".toList, some 0⟩] (40, 5)

/-- The pane after `search_next "ab"` found the match at `(0, 2)`. -/
def c9pane1 : Pane := {c9pane0 with current_search := some ⟨0, 2, "ab".toList⟩}

/-- An active editor browsing entry 0 of history `[a, b, a]`. -/
def c10ex : Ex := ⟨true, [], [], 0, ["a".toList, "b".toList, "a".toList], some 0⟩

/-! ## C1 -/

/-- C1: the claim says that after closing the active pane the panes
sequence and the per-pane origin sequences still all have equal length.
The code's `close` branch removes the active pane from `panes` only: after
opening two pages (lengths 2/2/2, active 1) and closing, the lengths are
1/2/2, so the session invariant is violated while both origin sequences
still hold stale entries. -/
theorem c1_close_desyncs_parallel_vectors :
    (((terkiStart.openPane "w".toList "a".toList terkiPage Location.End).bind
        (fun t => t.openPane "w".toList "b".toList terkiPage Location.End)).map
      (fun t => (t.panes.length, t.pane_to_wiki.length, t.pane_to_slug.length, t.active_pane)))
      = some (2, 2, 2, 1) ∧
    ((((terkiStart.openPane "w".toList "a".toList terkiPage Location.End).bind
        (fun t => t.openPane "w".toList "b".toList terkiPage Location.End)).bind
          Terki.close).map
      (fun t => (t.panes.length, t.pane_to_wiki.length, t.pane_to_slug.length, t.active_pane)))
      = some (1, 2, 2, 0) := by decide

/-! ## C2 -/

/-- C2: the claim says repeated `search_next` calls with the same pattern
visit matches in strictly increasing `(line, char_offset)` order and never
repeat a visited position. On the line `abab` with pattern `ab`, the first
call finds `(0, 0)` and the second call again reports `(0, 0)` (the code
adds the index found in the sliced remainder to `search.index` without the
`pattern.len()` offset), so the same position repeats forever instead of
advancing to `(0, 2)`. -/
theorem c2_search_next_repeats_match :
    (searchPane.search_next "ab".toList).map (fun r => (r.1.current_search, r.2))
      = some (some ⟨0, 0, "ab".toList⟩, SearchStatus.first) ∧
    ((searchPane.search_next "ab".toList).bind (fun r => r.1.search_next "ab".toList)).map
        (fun r => (r.1.current_search, r.2))
      = some (some ⟨0, 0, "ab".toList⟩, SearchStatus.next) := by decide

/-! ## C3 -/

/-- C3: the claim says `find_link(8, 1)` returns `Topic A`. The code finds
the `]]` closer at an index relative to the `[[` opener but slices with it
as an absolute index, so it returns `Top` instead; `find_link(2, 1)`
returns none as claimed. -/
theorem c3_find_link_wrong_substring :
    linkPane.find_link 8 1 = some (some "Top".toList) ∧
    linkPane.find_link 2 1 = some none ∧
    "Top".toList ≠ "Topic A".toList := by decide

/-! ## C4 -/

/-- C4 counterexample: submitting `a`, `x`, `a` and then recalling the
middle entry `x` with Up, Up, Enter removes `x` from between the two `a`
entries, leaving history `[a, a, x]` — two consecutive equal entries, so
the invariant does not hold for every reachable editor state. -/
theorem c4_counterexample :
    (runKeys Ex.new c4keys).map Ex.history
      = some ["a".toList, "a".toList, "x".toList] ∧
    some "a".toList = ["a".toList, "a".toList, "x".toList].get? 0 ∧
    some "a".toList = ["a".toList, "a".toList, "x".toList].get? 1 := by decide

/-- Helper: pressing Enter with an active editor, no history browsing and a
non-empty buffer submits the buffer: the editor deactivates, the buffer and
cursor reset, and the command is pushed with the immediate-repeat dedup
rule. -/
theorem enter_from_buffer (ex : Ex) (ha : ex.active = true) (hh : ex.hindex = none)
    (hb : ex.buffer ≠ []) :
    ex.handle_key_press KeyCode.enter
      = some ({ex with buffer := [], active := false, cursor_pos := 0,
                       history := exPush ex.history ex.buffer},
              ExEventStatus.run ex.buffer) := by
  obtain ⟨a, buf, res, cp, hist, hi⟩ := ex
  simp only [Ex.active] at ha
  simp only [Ex.hindex] at hh
  simp only [Ex.buffer] at hb
  subst ha hh
  simp only [Ex.handle_key_press, exFinishEnter, Bool.true_eq_false, if_false]
  rw [if_pos hb]

/-- Helper: the dedup push always leaves a history ending in the submitted
command. -/
theorem pushLast (h : List (List Char)) (b : List Char) :
    (exPush h b).getLast? = some b := by
  unfold exPush
  split
  · exact List.getLast?_concat _
  · next hc =>
      push_neg at hc
      exact hc.2

/-- Helper: a history ending in `b` triggers the dedup rule for `b`, so the
push leaves it unchanged. -/
theorem pushCondFalse (h : List (List Char)) (b : List Char)
    (hl : h.getLast? = some b) : exPush h b = h := by
  unfold exPush
  rw [if_neg]
  rintro (hnil | hne)
  · rw [hnil] at hl
    exact Option.noConfusion hl
  · exact hne hl

/-- C4 (amended): submitting the same non-empty command twice in a row
leaves the history unchanged (in particular of unchanged length) after the
second submission: the first submission leaves a history ending in the
command, and any later submission of a command that the history already
ends with is deduplicated. However, the invariant that history never
contains two consecutive equal entries does not hold for every reachable
state: a submission recalling an entry from the middle of history can
create a consecutive duplicate (see the counterexample). -/
theorem c4_immediate_repeat_dedup (ex ex2 : Ex) (b : List Char)
    (ha : ex.active = true) (hh : ex.hindex = none) (hbuf : ex.buffer = b) (hb : b ≠ [])
    (ha2 : ex2.active = true) (hh2 : ex2.hindex = none) (hbuf2 : ex2.buffer = b)
    (hhist2 : ex2.history = exPush ex.history b) :
    ex.handle_key_press KeyCode.enter
      = some ({ex with buffer := [], active := false, cursor_pos := 0,
                       history := exPush ex.history b}, ExEventStatus.run b) ∧
    ex2.handle_key_press KeyCode.enter
      = some ({ex2 with buffer := [], active := false, cursor_pos := 0},
              ExEventStatus.run b) ∧
    ({ex2 with buffer := [], active := false, cursor_pos := 0}).history
      = exPush ex.history b := by
  have hb1 : ex.buffer ≠ [] := by rw [hbuf]; exact hb
  have hb2 : ex2.buffer ≠ [] := by rw [hbuf2]; exact hb
  have hl2 : ex2.history.getLast? = some ex2.buffer := by
    rw [hhist2, hbuf2]
    exact pushLast _ _
  refine ⟨?_, ?_, ?_⟩
  · rw [enter_from_buffer ex ha hh hb1, hbuf]
  · rw [enter_from_buffer ex2 ha2 hh2 hb2, hbuf2]
    rw [pushCondFalse _ _ (hbuf2 ▸ hl2)]
  · simpa using hhist2

/-- The editor about to submit `go` for the second time. -/
def c4ex2 : Ex := ⟨true, "go".toList, [], 2, ["go".toList], none⟩

/-- Witness for C4's amended theorem at the concrete editors `c4ex` and
`c4ex2`. -/
theorem c4_immediate_repeat_dedup_witness :
    c4ex.handle_key_press KeyCode.enter
      = some ({c4ex with buffer := [], active := false, cursor_pos := 0,
                         history := exPush c4ex.history "go".toList},
              ExEventStatus.run "go".toList) ∧
    c4ex2.handle_key_press KeyCode.enter
      = some ({c4ex2 with buffer := [], active := false, cursor_pos := 0},
              ExEventStatus.run "go".toList) ∧
    ({c4ex2 with buffer := [], active := false, cursor_pos := 0}).history
      = exPush c4ex.history "go".toList :=
  c4_immediate_repeat_dedup c4ex c4ex2 "go".toList rfl rfl rfl (by decide)
    rfl rfl rfl (by decide)

/-! ## C5 -/

/-- C5 counterexample: the claim says Esc resets the buffer to empty and
the cursor offset to 0, so a later activation starts from an empty buffer.
On an active editor holding `abc` with cursor 3, Esc only deactivates: the
buffer stays `abc` and the cursor stays 3, and pressing `:` afterwards
reactivates the editor with the discarded text still in the buffer. -/
theorem c5_counterexample :
    c5ex.handle_key_press KeyCode.esc
      = some ({c5ex with active := false}, ExEventStatus.consumed) ∧
    ({c5ex with active := false}).buffer = "abc".toList ∧
    ({c5ex with active := false}).cursor_pos = 3 ∧
    Ex.handle_key_press {c5ex with active := false} (KeyCode.char ':')
      = some ({c5ex with active := true}, ExEventStatus.consumed) ∧
    ({c5ex with active := true}).buffer = "abc".toList := by decide

/-- C5 (amended): Esc deactivates the editor and leaves the history
unchanged, but the buffer and the cursor offset keep their values (nothing
is reset); a subsequent `:` activation resumes with the discarded buffer
text rather than an empty buffer. -/
theorem c5_esc_keeps_buffer (ex : Ex) (ha : ex.active = true) :
    ex.handle_key_press KeyCode.esc
      = some ({ex with active := false}, ExEventStatus.consumed) ∧
    Ex.handle_key_press {ex with active := false} (KeyCode.char ':')
      = some ({ex with active := true}, ExEventStatus.consumed) := by
  obtain ⟨a, buf, res, cp, hist, hi⟩ := ex
  simp only [Ex.active] at ha
  subst ha
  constructor
  · simp [Ex.handle_key_press]
  · simp [Ex.handle_key_press]

/-- Witness for C5's amended theorem at the concrete editor `c5ex`. -/
theorem c5_esc_keeps_buffer_witness :
    c5ex.handle_key_press KeyCode.esc
      = some ({c5ex with active := false}, ExEventStatus.consumed) ∧
    Ex.handle_key_press {c5ex with active := false} (KeyCode.char ':')
      = some ({c5ex with active := true}, ExEventStatus.consumed) :=
  c5_esc_keeps_buffer c5ex rfl

/-! ## C8 -/

/-- C8: calling `search_next` with a pattern different from the live
cursor's restores the cursor's line in the rendered buffer to its canonical
text, clears the cursor (so this call reports no match), reports status
"changed", and returns without seeking any match; everything else in the
pane is untouched. -/
theorem c8_pattern_change (p : Pane) (s : Search) (pattern : List Char) (canon : DisplayLine)
    (hcs : p.current_search = some s) (hne : s.pattern ≠ pattern)
    (hget : p.lines.get? s.line = some canon) (hlt : s.line < p.display_lines.length) :
    p.search_next pattern
      = some ({p with display_lines := p.display_lines.set s.line canon,
                      current_search := none}, SearchStatus.changed) := by
  unfold Pane.search_next
  rw [hcs]
  simp only [if_pos hne, hget, if_pos hlt]

/-- The canonical line of the C8 witness pane. -/
def c8canon : DisplayLine := ⟨"xxabyy".toList, some 0⟩

/-- Witness for C8 at the concrete pane `c8pane`, switching the pattern
from `ab` to `cd`. -/
theorem c8_pattern_change_witness :
    c8pane.search_next "cd".toList
      = some ({c8pane with display_lines := c8pane.display_lines.set 0 c8canon,
                           current_search := none}, SearchStatus.changed) :=
  c8_pattern_change c8pane ⟨0, 1, "ab".toList⟩ "cd".toList c8canon rfl
    (by decide) rfl (by decide)

/-! ## C9 -/

/-- C9 counterexample: the claim says a found match re-renders the owning
line in the rendered buffer with the matched substring styled bold. Calling
`search_next "ab"` on `c9pane0` finds the match at `(0, 2)`, yet both
buffers still hold the canonical text `xxabyy`, which is not the bold
re-rendering the claim requires. -/
theorem c9_counterexample :
    (c9pane0.search_next "ab".toList).map
        (fun r => (r.1.current_search, r.1.display_lines, r.1.lines, r.2))
      = some (some ⟨0, 2, "ab".toList⟩, c9pane0.display_lines, c9pane0.lines,
              SearchStatus.first) ∧
    (c9pane0.display_lines.get? 0).map DisplayLine.text = some "xxabyy".toList ∧
    "xxabyy".toList
      ≠ "xxabyy".toList.take 2 ++ styleBold "ab".toList ++ "xxabyy".toList.drop 4 := by
  decide

/-- C9 (amended): a `search_next` call that is not a pattern-change call
(in particular any call that finds a match) leaves both the canonical and
the rendered line buffer completely unchanged; the bold styling of the
matched substring is applied only at draw time, to a transient copy of the
owning rendered line, which is what `display` writes for that row. -/
theorem c9_search_never_writes_buffers (p : Pane) (pattern : List Char) (q : Pane)
    (st : SearchStatus) (h : p.search_next pattern = some (q, st))
    (hst : st ≠ SearchStatus.changed) :
    q.lines = p.lines ∧ q.display_lines = p.display_lines ∧
    (∀ s dl, q.current_search = some s → q.display_lines.get? s.line = some dl →
      s.index + s.pattern.length ≤ dl.text.length →
      q.renderLine s.line
        = some (dl.text.take s.index ++ styleBold s.pattern ++
                dl.text.drop (s.index + s.pattern.length))) := by
  have hrender : ∀ s dl, q.current_search = some s → q.display_lines.get? s.line = some dl →
      s.index + s.pattern.length ≤ dl.text.length →
      q.renderLine s.line
        = some (dl.text.take s.index ++ styleBold s.pattern ++
                dl.text.drop (s.index + s.pattern.length)) := by
    intro s dl hcs hgd hle
    unfold Pane.renderLine
    simp only [hgd, hcs, if_pos rfl, if_pos hle, if_true]
  refine ⟨?_, ?_, hrender⟩ <;>
  · unfold Pane.search_next at h
    split at h
    · split at h
      · split at h
        · exact absurd h (by simp)
        · split at h
          · rw [Option.some.injEq, Prod.mk.injEq] at h
            exact absurd h.2.symm hst
          · exact absurd h (by simp)
      · split at h
        · exact absurd h (by simp)
        · split at h
          · rw [Option.some.injEq, Prod.mk.injEq] at h
            rw [← h.1]
          · exact absurd h (by simp)
    · rw [Option.some.injEq, Prod.mk.injEq] at h
      rw [← h.1]

/-- Witness for C9's amended theorem at the concrete pane `c9pane0`. -/
theorem c9_search_never_writes_buffers_witness :
    c9pane1.lines = c9pane0.lines ∧ c9pane1.display_lines = c9pane0.display_lines ∧
    c9pane1.renderLine 0
      = some ("xxabyy".toList.take 2 ++ styleBold "ab".toList ++ "xxabyy".toList.drop 4) :=
  have h := c9_search_never_writes_buffers c9pane0 "ab".toList c9pane1 SearchStatus.first
    (by decide) (by decide)
  ⟨h.1, h.2.1, h.2.2 ⟨0, 2, "ab".toList⟩ ⟨"xxabyy".toList, some 0⟩ rfl (by decide) (by decide)⟩

/-! ## C10 -/

/-- C10: pressing Enter while browsing history, when the recalled entry
equals the entry that becomes last after the recalled one is removed from
its old position, removes it without re-appending (history shrinks by one),
still returns the recalled text as the command to run, and deactivates the
editor. -/
theorem c10_recall_dedup_shrinks (ex : Ex) (i : Nat) (r : List Char)
    (ha : ex.active = true) (hh : ex.hindex = some i)
    (hget : ex.history.get? i = some r) (hr : r ≠ [])
    (hlast : (ex.history.eraseIdx i).getLast? = some r) :
    ex.handle_key_press KeyCode.enter
      = some ({ex with active := false, cursor_pos := 0, hindex := none,
                       history := ex.history.eraseIdx i}, ExEventStatus.run r) ∧
    (ex.history.eraseIdx i).length + 1 = ex.history.length := by
  constructor
  · obtain ⟨a, buf, res, cp, hist, hi⟩ := ex
    simp only [Ex.active] at ha
    simp only [Ex.hindex] at hh
    simp only [Ex.history] at hget hlast
    subst ha hh
    simp only [Ex.handle_key_press, exFinishEnter, Bool.true_eq_false, if_false, hget]
    rw [if_pos hr, pushCondFalse _ _ hlast]
  · obtain ⟨hlt, -⟩ := List.get?_eq_some.mp hget
    exact List.length_eraseIdx_add_one hlt

/-- Witness for C10 at the concrete editor `c10ex` (history `[a, b, a]`,
browsing entry 0). -/
theorem c10_recall_dedup_shrinks_witness :
    c10ex.handle_key_press KeyCode.enter
      = some ({c10ex with active := false, cursor_pos := 0, hindex := none,
                          history := c10ex.history.eraseIdx 0}, ExEventStatus.run "a".toList) ∧
    (c10ex.history.eraseIdx 0).length + 1 = c10ex.history.length :=
  c10_recall_dedup_shrinks c10ex 0 "a".toList rfl rfl rfl (by decide) (by decide)

/-! ## Scroll lemmas -/

/-- Helper: the redraw loop of `scroll_down` advances `scroll_index` by
exactly its iteration count, touches nothing else, and (when it ran at
all) its last iteration read a row inside the rendered buffer. -/
theorem downLoop_spec (rows : Nat) :
    ∀ (k : Nat) (p q : Pane), downLoop rows k p = some q →
      q.scroll_index = p.scroll_index + k ∧ q.display_lines = p.display_lines ∧
      q.lines = p.lines ∧ q.size = p.size ∧ q.highlight_index = p.highlight_index ∧
      (q.scroll_index + rows - 3 < p.display_lines.length ∨
        q.scroll_index = p.scroll_index) := by
  intro k
  induction k with
  | zero =>
    intro p q h
    simp only [downLoop, Option.some.injEq] at h
    subst h
    exact ⟨rfl, rfl, rfl, rfl, rfl, Or.inr rfl⟩
  | succ n ih =>
    intro p q h
    simp only [downLoop] at h
    split at h
    · next hc =>
        obtain ⟨h1, h2, h3, h4, h5, h6⟩ := ih _ _ h
        have h1a : q.scroll_index = p.scroll_index + 1 + n := h1
        have h2a : q.display_lines = p.display_lines := h2
        have hcb : p.scroll_index + 1 + rows - 3 < p.display_lines.length := hc.2
        refine ⟨by omega, h2a, h3, h4, h5, Or.inl ?_⟩
        rcases h6 with h6a | h6b
        · have h6c : q.scroll_index + rows - 3 < p.display_lines.length := h6a
          exact h6c
        · have h6c : q.scroll_index = p.scroll_index + 1 := h6b
          omega
    · exact Option.noConfusion h

/-- Helper: the redraw loop of `scroll_up` decreases `scroll_index` by
exactly its iteration count and touches nothing else. -/
theorem upLoop_spec :
    ∀ (k : Nat) (p q : Pane), upLoop k p = some q →
      q.scroll_index + k = p.scroll_index ∧ q.display_lines = p.display_lines ∧
      q.lines = p.lines ∧ q.size = p.size ∧ q.highlight_index = p.highlight_index := by
  intro k
  induction k with
  | zero =>
    intro p q h
    simp only [upLoop, Option.some.injEq] at h
    subst h
    exact ⟨rfl, rfl, rfl, rfl, rfl⟩
  | succ n ih =>
    intro p q h
    simp only [upLoop] at h
    split at h
    · next hc =>
        obtain ⟨h1, h2, h3, h4, h5⟩ := ih _ _ h
        have h1a : q.scroll_index + n = p.scroll_index - 1 := h1
        have h2a : q.display_lines = p.display_lines := h2
        have hc1 : 1 ≤ p.scroll_index := hc.1
        exact ⟨by omega, h2a, h3, h4, h5⟩
    · exact Option.noConfusion h

/-- Helper: the copy-back loop of `reset_line` only rewrites rendered
lines in place, preserving everything a scroll bound depends on. -/
theorem resetLoop_pres (target : Nat) :
    ∀ (fuel : Nat) (i : Nat) (p q : Pane), resetLoop target fuel i p = some q →
      q.lines = p.lines ∧ q.scroll_index = p.scroll_index ∧ q.size = p.size ∧
      q.highlight_index = p.highlight_index ∧
      q.display_lines.length = p.display_lines.length := by
  intro fuel
  induction fuel with
  | zero =>
    intro i p q h
    simp only [resetLoop, Option.some.injEq] at h
    subst h
    exact ⟨rfl, rfl, rfl, rfl, rfl⟩
  | succ n ih =>
    intro i p q h
    simp only [resetLoop] at h
    split at h
    · rw [Option.some.injEq] at h
      subst h
      exact ⟨rfl, rfl, rfl, rfl, rfl⟩
    · split at h
      · split at h
        · obtain ⟨h1, h2, h3, h4, h5⟩ := ih _ _ _ h
          have h5a : q.display_lines.length
              = (p.display_lines.set i _).length := h5
          refine ⟨h1, h2, h3, h4, ?_⟩
          rw [h5a, List.length_set]
        · exact Option.noConfusion h
      · rw [Option.some.injEq] at h
        subst h
        exact ⟨rfl, rfl, rfl, rfl, rfl⟩

/-- Helper: `reset_line` preserves everything a scroll bound depends on. -/
theorem reset_line_pres (p : Pane) (hi : Option Nat) (q : Pane)
    (h : p.reset_line hi = some q) :
    q.lines = p.lines ∧ q.scroll_index = p.scroll_index ∧ q.size = p.size ∧
    q.highlight_index = p.highlight_index ∧
    q.display_lines.length = p.display_lines.length := by
  unfold Pane.reset_line at h
  split at h
  · rw [Option.some.injEq] at h
    subst h
    exact ⟨rfl, rfl, rfl, rfl, rfl⟩
  · split at h
    · rw [Option.some.injEq] at h
      subst h
      exact ⟨rfl, rfl, rfl, rfl, rfl⟩
    · split at h
      · exact Option.noConfusion h
      · split at h
        · exact Option.noConfusion h
        · exact resetLoop_pres _ _ _ _ _ h

/-- Helper: the restyle loop of `highlight_line` only rewrites rendered
line texts in place, preserving everything a scroll bound depends on. -/
theorem hlLoop_pres :
    ∀ (k : Nat) (i : Nat) (p q : Pane), hlLoop k i p = some q →
      q.lines = p.lines ∧ q.scroll_index = p.scroll_index ∧ q.size = p.size ∧
      q.highlight_index = p.highlight_index ∧
      q.display_lines.length = p.display_lines.length := by
  intro k
  induction k with
  | zero =>
    intro i p q h
    simp only [hlLoop, Option.some.injEq] at h
    subst h
    exact ⟨rfl, rfl, rfl, rfl, rfl⟩
  | succ n ih =>
    intro i p q h
    simp only [hlLoop] at h
    split at h
    · obtain ⟨h1, h2, h3, h4, h5⟩ := ih _ _ _ h
      have h5a : q.display_lines.length = (p.display_lines.set i _).length := h5
      refine ⟨h1, h2, h3, h4, ?_⟩
      rw [h5a, List.length_set]
    · exact Option.noConfusion h

/-- Helper: `highlight_line` preserves everything a scroll bound depends
on. -/
theorem highlight_line_pres (p q : Pane) (h : p.highlight_line = some q) :
    q.lines = p.lines ∧ q.scroll_index = p.scroll_index ∧ q.size = p.size ∧
    q.highlight_index = p.highlight_index ∧
    q.display_lines.length = p.display_lines.length := by
  unfold Pane.highlight_line at h
  exact hlLoop_pres _ _ _ _ h

/-! ## C6 -/

/-- A 5-line pane body whose lines are each their own logical item. -/
def mkLines5 : List DisplayLine :=
  [⟨"l0".toList, some 0⟩, ⟨"l1".toList, some 1⟩, ⟨"l2".toList, some 2⟩,
   ⟨"l3".toList, some 3⟩, ⟨"l4".toList, some 4⟩]

/-- A pane scrolled to its bottom bound (5 lines, 4 terminal rows, offset
3, reachable from offset 0 by three `scroll_down` calls). -/
def c6boundary : Pane := {Pane.new mkLines5 (40, 4) with scroll_index := 3}

/-- C6 counterexample: the claim includes the boundary where one call of
the pair is a no-op. At the bottom bound (offset 3 of a 5-line pane with 4
rows) `scroll_down` is a no-op but the following `scroll_up` still
scrolls, so the pair leaves the offset at 2 instead of restoring 3. -/
theorem c6_counterexample :
    c6boundary.scroll_down = some c6boundary ∧
    c6boundary.scroll_up = some {c6boundary with scroll_index := 2} ∧
    c6boundary.scroll_index = 3 := by decide

/-- C6 (amended): for a pane with no active item highlight, a
`scroll_down` immediately followed by a `scroll_up` (or vice versa), with
no other mutation in between, returns `scroll_offset` to its value before
the pair, provided neither call of the pair is a no-op (in the down-up
order the second call necessarily scrolls whenever the first did). At the
bottom boundary, where `scroll_down` is a no-op while the offset is
positive, the down-up pair instead decreases the offset by one (see the
counterexample). -/
theorem c6_pair_restores (p : Pane) (hh : p.highlight_index = none) :
    (∀ p1 p2, p.scroll_down = some p1 → p1.scroll_index ≠ p.scroll_index →
      p1.scroll_up = some p2 → p2.scroll_index = p.scroll_index) ∧
    (∀ p1 p2, p.scroll_up = some p1 → p1.scroll_index ≠ p.scroll_index →
      p1.scroll_down = some p2 → p2.scroll_index ≠ p1.scroll_index →
      p2.scroll_index = p.scroll_index) := by
  constructor
  · intro p1 p2 h1 hm h2
    unfold Pane.scroll_down at h1
    split at h1
    · exact Option.noConfusion h1
    · split at h1
      · rw [hh] at h1
        obtain ⟨d1, d2, d3, d4, d5, -⟩ := downLoop_spec _ _ _ _ h1
        unfold Pane.scroll_up at h2
        rw [if_pos (by omega), d5, hh] at h2
        obtain ⟨u1, -, -, -, -⟩ := upLoop_spec _ _ _ h2
        omega
      · rw [Option.some.injEq] at h1
        subst h1
        exact absurd rfl hm
  · intro p1 p2 h1 hm1 h2 hm2
    unfold Pane.scroll_up at h1
    split at h1
    · rw [hh] at h1
      obtain ⟨u1, u2, u3, u4, u5⟩ := upLoop_spec _ _ _ h1
      unfold Pane.scroll_down at h2
      split at h2
      · exact Option.noConfusion h2
      · split at h2
        · rw [u5, hh] at h2
          obtain ⟨d1, -, -, -, -, -⟩ := downLoop_spec _ _ _ _ h2
          omega
        · rw [Option.some.injEq] at h2
          subst h2
          exact absurd rfl hm2
    · rw [Option.some.injEq] at h1
      subst h1
      exact absurd rfl hm1

/-- A pane one step down from the top (5 lines, 4 rows, offset 1). -/
def c6mid : Pane := {Pane.new mkLines5 (40, 4) with scroll_index := 1}

/-- Witness for C6's amended theorem at the concrete pane `c6mid`: the
down-up pair steps 1 → 2 → 1 and the up-down pair steps 1 → 0 → 1, both
restoring the offset. -/
theorem c6_pair_restores_witness :
    c6mid.scroll_down = some {c6mid with scroll_index := 2} ∧
    ({c6mid with scroll_index := 2} : Pane).scroll_up
      = some {c6mid with scroll_index := 1} ∧
    ({c6mid with scroll_index := 1} : Pane).scroll_index = c6mid.scroll_index ∧
    ({c6mid with scroll_index := 1} : Pane).scroll_index = c6mid.scroll_index :=
  ⟨by decide, by decide,
   (c6_pair_restores c6mid rfl).1 {c6mid with scroll_index := 2}
     {c6mid with scroll_index := 1} (by decide) (by decide) (by decide),
   (c6_pair_restores c6mid rfl).2 {c6mid with scroll_index := 0}
     {c6mid with scroll_index := 1} (by decide) (by decide) (by decide) (by decide)⟩

/-! ## C7 -/

/-- C7: for a pane with at least 3 terminal rows whose buffers have equal
length and whose offset is in bounds, any `scroll_down` or `scroll_up`
call that completes (without panicking) keeps
`scroll_offset ≤ max(0, len(lines) - 1)` — including when an active item
highlight makes the computed scroll amount greater than 1 — and
`scroll_down` is a no-op once `scroll_offset + (rows - 2) ≥ len(lines)`
while `scroll_up` is a no-op at `scroll_offset = 0` (the lower bound
`0 ≤ scroll_offset` is inherent in the `Nat` offset). -/
theorem c7_scroll_bounds (p : Pane) (hr : 3 ≤ p.size.2)
    (hlen : p.display_lines.length = p.lines.length)
    (hidx : p.scroll_index ≤ p.lines.length - 1) :
    (∀ q, p.scroll_down = some q → q.scroll_index ≤ p.lines.length - 1) ∧
    (∀ q, p.scroll_up = some q → q.scroll_index ≤ p.lines.length - 1) ∧
    (p.lines.length ≤ p.scroll_index + (p.size.2 - 2) → p.scroll_down = some p) ∧
    (p.scroll_index = 0 → p.scroll_up = some p) := by
  refine ⟨?_, ?_, ?_, ?_⟩
  · intro q h
    unfold Pane.scroll_down at h
    split at h
    · exact Option.noConfusion h
    · split at h
      · next hg =>
          have hg1 : p.scroll_index + p.size.2 - 2 < p.lines.length := hg
          split at h
          · obtain ⟨d1, -, -, -, -, d6⟩ := downLoop_spec _ _ _ _ h
            rcases d6 with hb | hb <;> omega
          · split at h
            · exact Option.noConfusion h
            · split at h
              · obtain ⟨d1, -, -, -, -, d6⟩ := downLoop_spec _ _ _ _ h
                rcases d6 with hb | hb <;> omega
              · split at h
                · exact Option.noConfusion h
                · split at h
                  · exact Option.noConfusion h
                  · next p1 hreset =>
                      split at h
                      · exact Option.noConfusion h
                      · next p3 hhl =>
                          split at h
                          · exact Option.noConfusion h
                          · obtain ⟨r1, r2, r3, r4, r5⟩ := reset_line_pres _ _ _ hreset
                            obtain ⟨g1, g2, g3, g4, g5⟩ := highlight_line_pres _ _ hhl
                            have g2a : p3.scroll_index = p1.scroll_index := g2
                            have g5a : p3.display_lines.length
                                = p1.display_lines.length := g5
                            obtain ⟨d1, -, -, -, -, d6⟩ := downLoop_spec _ _ _ _ h
                            rcases d6 with hb | hb <;> omega
      · rw [Option.some.injEq] at h
        subst h
        exact hidx
  · intro q h
    unfold Pane.scroll_up at h
    split at h
    · split at h
      · obtain ⟨u1, -, -, -, -⟩ := upLoop_spec _ _ _ h
        omega
      · split at h
        · exact Option.noConfusion h
        · split at h
          · exact Option.noConfusion h
          · split at h
            · obtain ⟨u1, -, -, -, -⟩ := upLoop_spec _ _ _ h
              omega
            · split at h
              · exact Option.noConfusion h
              · split at h
                · exact Option.noConfusion h
                · next p1 hreset =>
                    split at h
                    · exact Option.noConfusion h
                    · next p3 hhl =>
                        split at h
                        · exact Option.noConfusion h
                        · obtain ⟨r1, r2, r3, r4, r5⟩ := reset_line_pres _ _ _ hreset
                          obtain ⟨g1, g2, g3, g4, g5⟩ := highlight_line_pres _ _ hhl
                          have g2a : p3.scroll_index = p1.scroll_index := g2
                          obtain ⟨u1, -, -, -, -⟩ := upLoop_spec _ _ _ h
                          omega
    · rw [Option.some.injEq] at h
      subst h
      exact hidx
  · intro hno
    unfold Pane.scroll_down
    rw [if_neg (by omega), if_neg (by omega)]
  · intro h0
    unfold Pane.scroll_up
    rw [if_neg (by omega)]

/-- A fresh 5-line pane with 4 terminal rows used as the C7 witness. -/
def c7pane : Pane := Pane.new mkLines5 (40, 4)

/-- Witness for C7 at the concrete pane `c7pane` (offset 0): `scroll_up`
is a no-op there and `scroll_down` lands on offset 1, inside the bound. -/
theorem c7_scroll_bounds_witness :
    c7pane.scroll_up = some c7pane ∧
    ({c7pane with scroll_index := 1} : Pane).scroll_index ≤ c7pane.lines.length - 1 :=
  have h := c7_scroll_bounds c7pane (by decide) (by decide) (by decide)
  ⟨h.2.2.2 rfl, h.1 {c7pane with scroll_index := 1} (by decide)⟩
